import Mathlib

/-!
Verification of the session-notification scheduler
(`src/hooks/session-notification.ts`).

The source is an event-driven debounce state machine: it consumes session
lifecycle events, arms a confirmation timer on `session.idle`, cancels (or
vetoes) it on activity, consults a todo gate at firing time and dispatches at
most one OS notification per idle episode.

Shallow embedding:
  * the three module-level collections (`notifiedSessions : Set`,
    `pendingTimers : Map`, `sessionActivitySinceIdle : Set`) become three
    boolean-valued maps keyed by session identifier;
  * a run is a list of `Step`s: `deliver ev` (one call of the returned event
    handler) or `fire sid env` (the `setTimeout` callback running
    `executeNotification`).  `clearTimeout` semantics are captured by gating
    `fire` on the timer still being recorded in `pendingTimers`: a cancelled
    timer never runs;
  * the environment of a firing (`FireEnv`) carries the outcome of the todo
    query (`ctx.client.session.todo`, which may reject) and whether the
    notification command fails;
  * the observable side effects at the sink boundary are recorded in order as
    `DispatchAction`s; escaping of quotes happens below this boundary, so a
    notify action carries the configured title/message verbatim, exactly as
    the source passes them to `sendNotification`.
-/

namespace SessionNotification

/-- Platform tags, as in `type Platform = "darwin" | "linux" | "win32" | "unsupported"`. -/
inductive Platform where
  | darwin
  | linux
  | win32
  | unsupported
deriving DecidableEq

/-- `detectPlatform()`: maps the host OS identity to a supported tag or `unsupported`. -/
def detectPlatform (osPlatform : String) : Platform :=
  if osPlatform = "darwin" then Platform.darwin
  else if osPlatform = "linux" then Platform.linux
  else if osPlatform = "win32" then Platform.win32
  else Platform.unsupported

/-- `getDefaultSoundPath(p)`. -/
def getDefaultSoundPath : Platform → String
  | Platform.darwin => "/System/Library/Sounds/Glass.aiff"
  | Platform.linux => "/usr/share/sounds/freedesktop/stereo/complete.oga"
  | Platform.win32 => "C:\\Windows\\Media\\notify.wav"
  | Platform.unsupported => ""

/-- The `Todo` record of the source. -/
structure Todo where
  content : String
  status : String
  priority : String
  id : String
deriving DecidableEq

/-- `hasIncompleteTodos(ctx, sessionID)`, as a function of the outcome of the
todo query: `Except.error ()` models the query rejecting (the `catch` branch),
`Except.ok none` models a null/absent task list (`!todos`), `Except.ok (some l)`
a retrieved list `l`. -/
def hasIncompleteTodos (response : Except Unit (Option (List Todo))) : Bool :=
  match response with
  | Except.error _ => false
  | Except.ok none => false
  | Except.ok (some todos) =>
    if todos.length = 0 then false
    else todos.any fun t => !(t.status == "completed") && !(t.status == "cancelled")

/-- The user-supplied `SessionNotificationConfig` (all fields optional). -/
structure SessionNotificationConfig where
  title : Option String := none
  message : Option String := none
  playSound : Option Bool := none
  soundPath : Option String := none
  idleConfirmationDelay : Option Nat := none
  skipIfIncompleteTodos : Option Bool := none
deriving DecidableEq

/-- The `mergedConfig` record after applying defaults. -/
structure MergedConfig where
  title : String
  message : String
  playSound : Bool
  soundPath : String
  idleConfirmationDelay : Nat
  skipIfIncompleteTodos : Bool
deriving DecidableEq

/-- The `{ ...defaults, ...config }` merge performed in `createSessionNotification`. -/
def mergeConfig (p : Platform) (c : SessionNotificationConfig) : MergedConfig where
  title := c.title.getD "OpenCode"
  message := c.message.getD "Agent is ready for input"
  playSound := c.playSound.getD false
  soundPath := c.soundPath.getD (getDefaultSoundPath p)
  idleConfirmationDelay := c.idleConfirmationDelay.getD 1500
  skipIfIncompleteTodos := c.skipIfIncompleteTodos.getD true

/-- Per-session scheduler state: membership in `notifiedSessions`,
`pendingTimers` and `sessionActivitySinceIdle`, as boolean-valued maps over
session identifiers. -/
structure SchedulerState where
  notifiedSessions : String → Bool
  pendingTimers : String → Bool
  sessionActivitySinceIdle : String → Bool

/-- Pointwise update of one key of a boolean map (a `Set.add`/`Set.delete` or
`Map.set`/`Map.delete` on the keyed collections of the source). -/
def setFlag (f : String → Bool) (sessionID : String) (b : Bool) : String → Bool :=
  fun id => if id = sessionID then b else f id

/-- The state before any event: all three collections empty. -/
def initState : SchedulerState where
  notifiedSessions := fun _ => false
  pendingTimers := fun _ => false
  sessionActivitySinceIdle := fun _ => false

/-- `cancelPendingNotification(sessionID)`: clear the stored timer if any
(`clearTimeout` + `Map.delete`), then unconditionally add the session to
`sessionActivitySinceIdle`. -/
def cancelPendingNotification (st : SchedulerState) (sessionID : String) : SchedulerState :=
  let st1 :=
    if st.pendingTimers sessionID then
      { st with pendingTimers := setFlag st.pendingTimers sessionID false }
    else st
  { st1 with sessionActivitySinceIdle := setFlag st1.sessionActivitySinceIdle sessionID true }

/-- `markSessionActivity(sessionID)`. -/
def markSessionActivity (st : SchedulerState) (sessionID : String) : SchedulerState :=
  let st1 := cancelPendingNotification st sessionID
  { st1 with notifiedSessions := setFlag st1.notifiedSessions sessionID false }

/-- One observable call at the sink boundary, in the order the source performs
them during `executeNotification`. -/
inductive DispatchAction where
  | markNotified (sessionID : String)
  | notifyCall (sessionID : String) (title : String) (message : String)
  | playSoundCall (sessionID : String) (soundPath : String)
deriving DecidableEq

/-- Environment of one timer firing: the outcome of the todo query at that
moment and whether the OS notification command rejects. -/
structure FireEnv where
  todoResponse : Except Unit (Option (List Todo))
  notifyFails : Bool

/-- The body of the `try` block of `executeNotification`: `sendNotification`
is awaited (the notify call happens and may reject, modelled by
`env.notifyFails`); if it succeeded and a sound is configured with a non-empty
path (string truthiness of `mergedConfig.soundPath`), `playSound` runs next
and swallows its own errors internally.  Returns the sink calls made and
whether the block threw. -/
def tryDispatch (p : Platform) (cfg : MergedConfig) (sessionID : String) (env : FireEnv) :
    List DispatchAction × Except Unit Unit :=
  let notifyActs : List DispatchAction :=
    match p with
    | Platform.unsupported => []
    | _ => [DispatchAction.notifyCall sessionID cfg.title cfg.message]
  if env.notifyFails then (notifyActs, Except.error ())
  else if cfg.playSound && !(cfg.soundPath == "") then
    (notifyActs ++ [DispatchAction.playSoundCall sessionID cfg.soundPath], Except.ok ())
  else (notifyActs, Except.ok ())

/-- `executeNotification(sessionID)`, the confirmation routine run by the
timer callback: delete the timer record, veto on `sessionActivitySinceIdle`,
abort if already notified, consult the todo gate when configured, otherwise
mark notified and dispatch inside `try { ... } catch {}` — the outcome of
`tryDispatch` is discarded, so a dispatch failure neither escapes nor touches
state.  The source deletes the timer record first and then branches; the
branch conditions read only `sessionActivitySinceIdle` and
`notifiedSessions`, which that delete does not touch, so the delete is
equivalently applied inside every branch here. -/
def executeNotification (p : Platform) (cfg : MergedConfig) (st : SchedulerState)
    (sessionID : String) (env : FireEnv) : SchedulerState × List DispatchAction :=
  if st.sessionActivitySinceIdle sessionID then
    ({ st with
        pendingTimers := setFlag st.pendingTimers sessionID false,
        sessionActivitySinceIdle := setFlag st.sessionActivitySinceIdle sessionID false }, [])
  else if st.notifiedSessions sessionID then
    ({ st with pendingTimers := setFlag st.pendingTimers sessionID false }, [])
  else if cfg.skipIfIncompleteTodos && hasIncompleteTodos env.todoResponse then
    ({ st with pendingTimers := setFlag st.pendingTimers sessionID false }, [])
  else
    ({ st with
        pendingTimers := setFlag st.pendingTimers sessionID false,
        notifiedSessions := setFlag st.notifiedSessions sessionID true },
      DispatchAction.markNotified sessionID :: (tryDispatch p cfg sessionID env).1)

/-- Incoming lifecycle events, each carrying the session identifier the
source extracts from its property bag (`none` when the expected field is
missing); `other` is any unrecognized kind. -/
inductive Event where
  | sessionCreated (id : Option String)
  | sessionUpdated (id : Option String)
  | sessionIdle (sessionID : Option String)
  | messageUpdated (sessionID : Option String)
  | sessionDeleted (id : Option String)
  | other
deriving DecidableEq

/-- The returned event handler of `createSessionNotification`: a universal
no-op on the unsupported platform, otherwise the per-event-kind transitions
of the source (the kind strings are mutually exclusive, so the source's
sequence of `if` blocks is a match on the kind). -/
def handleEvent (p : Platform) (st : SchedulerState) (ev : Event) : SchedulerState :=
  if p = Platform.unsupported then st
  else
    match ev with
    | Event.sessionCreated (some sid) => markSessionActivity st sid
    | Event.sessionCreated none => st
    | Event.sessionUpdated (some sid) => markSessionActivity st sid
    | Event.sessionUpdated none => st
    | Event.sessionIdle (some sid) =>
      if st.notifiedSessions sid then st
      else if st.pendingTimers sid then st
      else
        { st with
            sessionActivitySinceIdle := setFlag st.sessionActivitySinceIdle sid false,
            pendingTimers := setFlag st.pendingTimers sid true }
    | Event.sessionIdle none => st
    | Event.messageUpdated (some sid) => markSessionActivity st sid
    | Event.messageUpdated none => st
    | Event.sessionDeleted (some sid) =>
      { cancelPendingNotification st sid with
          notifiedSessions :=
            setFlag (cancelPendingNotification st sid).notifiedSessions sid false,
          sessionActivitySinceIdle :=
            setFlag (cancelPendingNotification st sid).sessionActivitySinceIdle sid false }
    | Event.sessionDeleted none => st
    | Event.other => st

/-- One scheduling step of the atomic trace model: either the host delivers
an event to the handler, or an armed timer fires and its confirmation
routine runs to completion with nothing interleaved.  A `fire` for a session
whose timer record is gone is a no-op: `clearTimeout` guarantees a cancelled
callback never runs, and while a timer is armed, the record in
`pendingTimers` is that timer.  Because the source's routine suspends at the
todo-gate `await`, this atomic step is faithful only to runs in which no
same-session step interleaves that suspension; `CStep`/`runCStep` below is
the general model with explicit suspension points, and
`fire_eq_begin_then_resume` shows a `fire` is exactly a `fireBegin` followed
immediately by its own `fireResume`. -/
inductive Step where
  | deliver (ev : Event)
  | fire (sessionID : String) (env : FireEnv)

/-- Run one step, returning the new state and the sink calls it made. -/
def runStep (p : Platform) (cfg : MergedConfig) (st : SchedulerState) :
    Step → SchedulerState × List DispatchAction
  | Step.deliver ev => (handleEvent p st ev, [])
  | Step.fire sid env =>
    if st.pendingTimers sid then executeNotification p cfg st sid env else (st, [])

/-- Run a sequence of steps, concatenating the sink calls in order. -/
def runTrace (p : Platform) (cfg : MergedConfig) (st : SchedulerState) :
    List Step → SchedulerState × List DispatchAction
  | [] => (st, [])
  | step :: rest =>
    let r := runStep p cfg st step
    let r2 := runTrace p cfg r.1 rest
    (r2.1, r.2 ++ r2.2)

/-- Whether an action is an OS-notification call for the given session. -/
def DispatchAction.isNotifyFor (sid : String) : DispatchAction → Bool
  | DispatchAction.notifyCall s _ _ => s == sid
  | _ => false

/-- Number of OS-notification calls for a session in a list of sink calls. -/
def notifiesFor (sid : String) (acts : List DispatchAction) : Nat :=
  (acts.filter (DispatchAction.isNotifyFor sid)).length

/-- Steps that end an idle episode of session `sid`: activity events
(`session.created`, `session.updated`, `message.updated`) and deletion. -/
def endsEpisodeFor (sid : String) : Step → Bool
  | Step.deliver (Event.sessionCreated (some s)) => s == sid
  | Step.deliver (Event.sessionUpdated (some s)) => s == sid
  | Step.deliver (Event.messageUpdated (some s)) => s == sid
  | Step.deliver (Event.sessionDeleted (some s)) => s == sid
  | _ => false

/-- Steps keyed by session `sid` (any of the five recognized events carrying
`sid`, or a firing of `sid`'s timer). -/
def involvesSession (sid : String) : Step → Bool
  | Step.deliver (Event.sessionCreated (some s)) => s == sid
  | Step.deliver (Event.sessionUpdated (some s)) => s == sid
  | Step.deliver (Event.sessionIdle (some s)) => s == sid
  | Step.deliver (Event.messageUpdated (some s)) => s == sid
  | Step.deliver (Event.sessionDeleted (some s)) => s == sid
  | Step.fire s _ => s == sid
  | _ => false

/-- The three per-session fields of `T` agree between two states. -/
def agreesAt (T : String) (a b : SchedulerState) : Prop :=
  a.notifiedSessions T = b.notifiedSessions T ∧
  a.pendingTimers T = b.pendingTimers T ∧
  a.sessionActivitySinceIdle T = b.sessionActivitySinceIdle T

/-- Firings of session `sid`'s timer. -/
def firesFor (sid : String) : Step → Bool
  | Step.fire s _ => s == sid
  | _ => false

/-- State of the concurrent model: the scheduler collections plus, per
session, the number of confirmation routines currently suspended at the
`await hasIncompleteTodos` point — after their activity veto and
already-notified check but before their `notifiedSessions.add` commit. -/
structure CState where
  sched : SchedulerState
  inFlight : String → Nat

/-- The fresh state of the concurrent model. -/
def initCState : CState where
  sched := initState
  inFlight := fun _ => 0

/-- One atomic synchronous segment under the host's single-threaded
cooperative scheduling: an event delivery; the prologue of a timer callback
(`executeNotification` from its start up to the todo-gate `await` — or the
whole routine when `skipIfIncompleteTodos` is false, since nothing is then
awaited before the commit); or the resumption of a suspended routine, from
the todo-gate `await` through commit and dispatch.  The resumed code
re-reads no flags — it checked `sessionActivitySinceIdle` and
`notifiedSessions` before suspending — exactly as in the source. -/
inductive CStep where
  | deliver (ev : Event)
  | fireBegin (sessionID : String) (env : FireEnv)
  | fireResume (sessionID : String) (env : FireEnv)

/-- Run one concurrent step.  `fireBegin` is gated on the timer record still
existing, as in `runStep`; `fireResume` is gated on a routine actually being
suspended for that session.  The commit segments emit the same sink calls as
the atomic model (`tryDispatch`); the sound call is folded into the commit
segment, which only reorders it relative to interleaved steps' actions and
touches no state. -/
def runCStep (p : Platform) (cfg : MergedConfig) (cs : CState) :
    CStep → CState × List DispatchAction
  | CStep.deliver ev => ({ cs with sched := handleEvent p cs.sched ev }, [])
  | CStep.fireBegin sid env =>
    if cs.sched.pendingTimers sid then
      if cs.sched.sessionActivitySinceIdle sid then
        ({ cs with
            sched := { cs.sched with
              pendingTimers := setFlag cs.sched.pendingTimers sid false,
              sessionActivitySinceIdle :=
                setFlag cs.sched.sessionActivitySinceIdle sid false } }, [])
      else if cs.sched.notifiedSessions sid then
        ({ cs with
            sched := { cs.sched with
              pendingTimers := setFlag cs.sched.pendingTimers sid false } }, [])
      else if cfg.skipIfIncompleteTodos then
        ({ sched := { cs.sched with
              pendingTimers := setFlag cs.sched.pendingTimers sid false },
            inFlight := fun id => if id = sid then cs.inFlight id + 1 else cs.inFlight id },
          [])
      else
        ({ cs with
            sched := { cs.sched with
              pendingTimers := setFlag cs.sched.pendingTimers sid false,
              notifiedSessions := setFlag cs.sched.notifiedSessions sid true } },
          DispatchAction.markNotified sid :: (tryDispatch p cfg sid env).1)
    else (cs, [])
  | CStep.fireResume sid env =>
    if cs.inFlight sid = 0 then (cs, [])
    else if hasIncompleteTodos env.todoResponse then
      ({ cs with
          inFlight := fun id => if id = sid then cs.inFlight id - 1 else cs.inFlight id },
        [])
    else
      ({ sched := { cs.sched with
            notifiedSessions := setFlag cs.sched.notifiedSessions sid true },
          inFlight := fun id => if id = sid then cs.inFlight id - 1 else cs.inFlight id },
        DispatchAction.markNotified sid :: (tryDispatch p cfg sid env).1)

/-- Run a sequence of concurrent steps, concatenating the sink calls. -/
def runCTrace (p : Platform) (cfg : MergedConfig) (cs : CState) :
    List CStep → CState × List DispatchAction
  | [] => (cs, [])
  | step :: rest =>
    let r := runCStep p cfg cs step
    let r2 := runCTrace p cfg r.1 rest
    (r2.1, r.2 ++ r2.2)

/-- Concurrent steps that end an idle episode of `sid`: the same activity
and deletion events as `endsEpisodeFor`. -/
def endsEpisodeForC (sid : String) : CStep → Bool
  | CStep.deliver (Event.sessionCreated (some s)) => s == sid
  | CStep.deliver (Event.sessionUpdated (some s)) => s == sid
  | CStep.deliver (Event.messageUpdated (some s)) => s == sid
  | CStep.deliver (Event.sessionDeleted (some s)) => s == sid
  | _ => false

lemma setFlag_eval (f : String → Bool) (sid b id) :
    setFlag f sid b id = if id = sid then b else f id := rfl

lemma cancelPending_notified (st : SchedulerState) (sid : String) :
    (cancelPendingNotification st sid).notifiedSessions = st.notifiedSessions := by
  unfold cancelPendingNotification
  split <;> rfl

lemma cancelPending_pending (st : SchedulerState) (sid id : String) :
    (cancelPendingNotification st sid).pendingTimers id =
      if id = sid then false else st.pendingTimers id := by
  unfold cancelPendingNotification
  cases hb : st.pendingTimers sid <;> by_cases hid : id = sid <;>
    simp [hb, hid, setFlag]

lemma cancelPending_activity (st : SchedulerState) (sid id : String) :
    (cancelPendingNotification st sid).sessionActivitySinceIdle id =
      if id = sid then true else st.sessionActivitySinceIdle id := by
  unfold cancelPendingNotification
  cases hb : st.pendingTimers sid <;> simp [hb, setFlag]

lemma mark_notified (st : SchedulerState) (sid id : String) :
    (markSessionActivity st sid).notifiedSessions id =
      if id = sid then false else st.notifiedSessions id := by
  unfold markSessionActivity
  simp [setFlag, cancelPending_notified]

lemma mark_pending (st : SchedulerState) (sid id : String) :
    (markSessionActivity st sid).pendingTimers id =
      if id = sid then false else st.pendingTimers id := by
  unfold markSessionActivity
  simp [cancelPending_pending]

lemma mark_activity (st : SchedulerState) (sid id : String) :
    (markSessionActivity st sid).sessionActivitySinceIdle id =
      if id = sid then true else st.sessionActivitySinceIdle id := by
  unfold markSessionActivity
  simp [cancelPending_activity]

lemma notifiesFor_cons (sid : String) (a : DispatchAction) (acts : List DispatchAction) :
    notifiesFor sid (a :: acts) =
      (if DispatchAction.isNotifyFor sid a then 1 else 0) + notifiesFor sid acts := by
  by_cases hpa : DispatchAction.isNotifyFor sid a <;>
    simp [notifiesFor, List.filter_cons, hpa, Nat.add_comm]

lemma notifiesFor_append (sid : String) (a b : List DispatchAction) :
    notifiesFor sid (a ++ b) = notifiesFor sid a + notifiesFor sid b := by
  simp [notifiesFor, List.filter_append]

lemma runTrace_append (p : Platform) (cfg : MergedConfig) (st : SchedulerState)
    (a b : List Step) :
    runTrace p cfg st (a ++ b) =
      ((runTrace p cfg (runTrace p cfg st a).1 b).1,
        (runTrace p cfg st a).2 ++ (runTrace p cfg (runTrace p cfg st a).1 b).2) := by
  induction a generalizing st with
  | nil => simp [runTrace]
  | cons step rest ih => simp [runTrace, ih, List.append_assoc]

lemma tryDispatch_count (p : Platform) (cfg : MergedConfig) (sid : String) (env : FireEnv)
    (S : String) :
    notifiesFor S (tryDispatch p cfg sid env).1 =
      if sid = S ∧ p ≠ Platform.unsupported then 1 else 0 := by
  by_cases hs : sid = S <;> cases p <;>
    simp [tryDispatch, notifiesFor, DispatchAction.isNotifyFor, hs] <;>
      split_ifs <;>
        simp [DispatchAction.isNotifyFor, hs]

lemma tryDispatch_mem (p : Platform) (cfg : MergedConfig) (sid : String) (env : FireEnv)
    (hp : p ≠ Platform.unsupported) :
    DispatchAction.notifyCall sid cfg.title cfg.message ∈ (tryDispatch p cfg sid env).1 := by
  cases p <;>
    first
      | exact absurd rfl hp
      | (unfold tryDispatch
         split_ifs <;> simp)

lemma exec_frame (p : Platform) (cfg : MergedConfig) (st : SchedulerState) (sid : String)
    (env : FireEnv) (T : String) (h : T ≠ sid) :
    agreesAt T st (executeNotification p cfg st sid env).1 := by
  unfold executeNotification
  split_ifs <;> simp [agreesAt, setFlag_eval, h]

lemma exec_notifies_ne (p : Platform) (cfg : MergedConfig) (st : SchedulerState) (sid : String)
    (env : FireEnv) (T : String) (h : sid ≠ T) :
    notifiesFor T (executeNotification p cfg st sid env).2 = 0 := by
  unfold executeNotification
  split_ifs
  · simp [notifiesFor]
  · simp [notifiesFor]
  · simp [notifiesFor]
  · rw [notifiesFor_cons, tryDispatch_count]
    simp [DispatchAction.isNotifyFor, h]

lemma exec_cases (p : Platform) (cfg : MergedConfig) (st : SchedulerState) (sid : String)
    (env : FireEnv) :
    (executeNotification p cfg st sid env).2 = [] ∨
      ((executeNotification p cfg st sid env).1.notifiedSessions sid = true ∧
        (executeNotification p cfg st sid env).2 =
          DispatchAction.markNotified sid :: (tryDispatch p cfg sid env).1) := by
  unfold executeNotification
  split_ifs <;> simp [setFlag_eval]

lemma exec_dispatch (p : Platform) (cfg : MergedConfig) (st : SchedulerState) (sid : String)
    (env : FireEnv)
    (hact : st.sessionActivitySinceIdle sid = false)
    (hnot : st.notifiedSessions sid = false)
    (hgate : cfg.skipIfIncompleteTodos = false ∨ hasIncompleteTodos env.todoResponse = false) :
    executeNotification p cfg st sid env =
      ({ st with
          pendingTimers := setFlag st.pendingTimers sid false,
          notifiedSessions := setFlag st.notifiedSessions sid true },
        DispatchAction.markNotified sid :: (tryDispatch p cfg sid env).1) := by
  unfold executeNotification
  rcases hgate with h | h <;> simp [hact, hnot, h]

lemma handleEvent_frame (p : Platform) (st : SchedulerState) (ev : Event) (T : String)
    (h : involvesSession T (Step.deliver ev) = false) :
    agreesAt T st (handleEvent p st ev) := by
  by_cases hp : p = Platform.unsupported
  · simp [handleEvent, hp, agreesAt]
  · cases ev with
    | sessionCreated o =>
      cases o with
      | none => simp [handleEvent, hp, agreesAt]
      | some s =>
        simp only [involvesSession, beq_eq_false_iff_ne, ne_eq] at h
        have hs : ¬(T = s) := fun hTs => h hTs.symm
        simp [handleEvent, hp, agreesAt, mark_notified, mark_pending, mark_activity, hs]
    | sessionUpdated o =>
      cases o with
      | none => simp [handleEvent, hp, agreesAt]
      | some s =>
        simp only [involvesSession, beq_eq_false_iff_ne, ne_eq] at h
        have hs : ¬(T = s) := fun hTs => h hTs.symm
        simp [handleEvent, hp, agreesAt, mark_notified, mark_pending, mark_activity, hs]
    | messageUpdated o =>
      cases o with
      | none => simp [handleEvent, hp, agreesAt]
      | some s =>
        simp only [involvesSession, beq_eq_false_iff_ne, ne_eq] at h
        have hs : ¬(T = s) := fun hTs => h hTs.symm
        simp [handleEvent, hp, agreesAt, mark_notified, mark_pending, mark_activity, hs]
    | sessionIdle o =>
      cases o with
      | none => simp [handleEvent, hp, agreesAt]
      | some s =>
        simp only [involvesSession, beq_eq_false_iff_ne, ne_eq] at h
        have hs : ¬(T = s) := fun hTs => h hTs.symm
        simp only [handleEvent, hp, if_false]
        split_ifs <;> simp [agreesAt, setFlag_eval, hs]
    | sessionDeleted o =>
      cases o with
      | none => simp [handleEvent, hp, agreesAt]
      | some s =>
        simp only [involvesSession, beq_eq_false_iff_ne, ne_eq] at h
        have hs : ¬(T = s) := fun hTs => h hTs.symm
        simp [handleEvent, hp, agreesAt, setFlag_eval, cancelPending_notified,
          cancelPending_pending, cancelPending_activity, hs]
    | other => simp [handleEvent, hp, agreesAt]

lemma runStep_frame (p : Platform) (cfg : MergedConfig) (st : SchedulerState) (step : Step)
    (T : String) (h : involvesSession T step = false) :
    agreesAt T st (runStep p cfg st step).1 ∧
      notifiesFor T (runStep p cfg st step).2 = 0 := by
  cases step with
  | deliver ev =>
    exact ⟨handleEvent_frame p st ev T h, by simp [runStep, notifiesFor]⟩
  | fire s env =>
    simp only [involvesSession, beq_eq_false_iff_ne, ne_eq] at h
    by_cases hpend : st.pendingTimers s = true
    · refine ⟨?_, ?_⟩ <;> simp only [runStep, hpend, if_true]
      · exact exec_frame p cfg st s env T (fun hTs => h hTs.symm)
      · exact exec_notifies_ne p cfg st s env T h
    · simp [runStep, hpend, agreesAt, notifiesFor]

lemma runStep_preserves_notified (p : Platform) (cfg : MergedConfig) (st : SchedulerState)
    (step : Step) (S : String)
    (hnot : st.notifiedSessions S = true) (hend : endsEpisodeFor S step = false) :
    (runStep p cfg st step).1.notifiedSessions S = true ∧
      notifiesFor S (runStep p cfg st step).2 = 0 := by
  cases step with
  | deliver ev =>
    refine ⟨?_, by simp [runStep, notifiesFor]⟩
    by_cases hp : p = Platform.unsupported
    · simpa [runStep, handleEvent, hp]
    · cases ev with
      | sessionCreated o =>
        cases o with
        | none => simpa [runStep, handleEvent, hp]
        | some s =>
          simp only [endsEpisodeFor, beq_eq_false_iff_ne, ne_eq] at hend
          have hs : ¬(S = s) := fun hSs => hend hSs.symm
          simpa [runStep, handleEvent, hp, mark_notified, hs]
      | sessionUpdated o =>
        cases o with
        | none => simpa [runStep, handleEvent, hp]
        | some s =>
          simp only [endsEpisodeFor, beq_eq_false_iff_ne, ne_eq] at hend
          have hs : ¬(S = s) := fun hSs => hend hSs.symm
          simpa [runStep, handleEvent, hp, mark_notified, hs]
      | messageUpdated o =>
        cases o with
        | none => simpa [runStep, handleEvent, hp]
        | some s =>
          simp only [endsEpisodeFor, beq_eq_false_iff_ne, ne_eq] at hend
          have hs : ¬(S = s) := fun hSs => hend hSs.symm
          simpa [runStep, handleEvent, hp, mark_notified, hs]
      | sessionIdle o =>
        cases o with
        | none => simpa [runStep, handleEvent, hp]
        | some s =>
          simp only [runStep, handleEvent, hp, if_false]
          split_ifs <;> simp [hnot]
      | sessionDeleted o =>
        cases o with
        | none => simpa [runStep, handleEvent, hp]
        | some s =>
          simp only [endsEpisodeFor, beq_eq_false_iff_ne, ne_eq] at hend
          have hs : ¬(S = s) := fun hSs => hend hSs.symm
          simpa [runStep, handleEvent, hp, setFlag_eval, cancelPending_notified, hs]
      | other => simpa [runStep, handleEvent, hp]
  | fire s env =>
    by_cases hpend : st.pendingTimers s = true
    · simp only [runStep, hpend, if_true]
      by_cases hsS : s = S
      · subst hsS
        unfold executeNotification
        split_ifs <;> simp_all [notifiesFor]
      · exact ⟨((exec_frame p cfg st s env S (fun hSs => hsS hSs.symm)).1).symm ▸ hnot,
          exec_notifies_ne p cfg st s env S hsS⟩
    · simpa [runStep, hpend, notifiesFor]

lemma runStep_preserves_armed (p : Platform) (cfg : MergedConfig) (st : SchedulerState)
    (step : Step) (S : String)
    (hpend : st.pendingTimers S = true) (hnot : st.notifiedSessions S = false)
    (hact : st.sessionActivitySinceIdle S = false)
    (hend : endsEpisodeFor S step = false) (hfir : firesFor S step = false) :
    (runStep p cfg st step).1.pendingTimers S = true ∧
      (runStep p cfg st step).1.notifiedSessions S = false ∧
      (runStep p cfg st step).1.sessionActivitySinceIdle S = false ∧
      notifiesFor S (runStep p cfg st step).2 = 0 := by
  cases step with
  | deliver ev =>
    refine ?_
    by_cases hi : involvesSession S (Step.deliver ev) = true
    · -- the only S-keyed event a non-episode-ending, non-firing step can be
      -- is `session.idle(S)`, ignored because the timer is pending
      cases ev with
      | sessionCreated o =>
        cases o with
        | none => simp [involvesSession] at hi
        | some s =>
          have hsS : s = S := by simpa [involvesSession] using hi
          rw [hsS] at hend
          simp [endsEpisodeFor] at hend
      | sessionUpdated o =>
        cases o with
        | none => simp [involvesSession] at hi
        | some s =>
          have hsS : s = S := by simpa [involvesSession] using hi
          rw [hsS] at hend
          simp [endsEpisodeFor] at hend
      | messageUpdated o =>
        cases o with
        | none => simp [involvesSession] at hi
        | some s =>
          have hsS : s = S := by simpa [involvesSession] using hi
          rw [hsS] at hend
          simp [endsEpisodeFor] at hend
      | sessionDeleted o =>
        cases o with
        | none => simp [involvesSession] at hi
        | some s =>
          have hsS : s = S := by simpa [involvesSession] using hi
          rw [hsS] at hend
          simp [endsEpisodeFor] at hend
      | sessionIdle o =>
        cases o with
        | none => simp [involvesSession] at hi
        | some s =>
          have hsS : s = S := by simpa [involvesSession] using hi
          subst hsS
          by_cases hp : p = Platform.unsupported
          · simp [runStep, handleEvent, hp, hpend, hnot, hact, notifiesFor]
          · simp [runStep, handleEvent, hp, hpend, hnot, hact, notifiesFor]
      | other => simp [involvesSession] at hi
    · have hfr := runStep_frame p cfg st (Step.deliver ev) S (by simpa using hi)
      rcases hfr with ⟨⟨e1, e2, e3⟩, e4⟩
      exact ⟨e2 ▸ hpend, e1 ▸ hnot, e3 ▸ hact, e4⟩
  | fire s env =>
    simp only [firesFor, beq_eq_false_iff_ne, ne_eq] at hfir
    have hfr := runStep_frame p cfg st (Step.fire s env) S
      (by simp [involvesSession, hfir])
    rcases hfr with ⟨⟨e1, e2, e3⟩, e4⟩
    exact ⟨e2 ▸ hpend, e1 ▸ hnot, e3 ▸ hact, e4⟩

lemma runStep_notify_le_one (p : Platform) (cfg : MergedConfig) (st : SchedulerState)
    (step : Step) (S : String) :
    notifiesFor S (runStep p cfg st step).2 ≤ 1 := by
  cases step with
  | deliver ev => simp [runStep, notifiesFor]
  | fire s env =>
    by_cases hpend : st.pendingTimers s = true
    · simp only [runStep, hpend, if_true]
      rcases exec_cases p cfg st s env with hc | hc
      · simp [hc, notifiesFor]
      · rw [hc.2, notifiesFor_cons, tryDispatch_count]
        split_ifs <;> simp_all [DispatchAction.isNotifyFor]
    · simp [runStep, hpend, notifiesFor]

lemma runStep_notify_pos (p : Platform) (cfg : MergedConfig) (st : SchedulerState)
    (step : Step) (S : String)
    (h : 0 < notifiesFor S (runStep p cfg st step).2) :
    (runStep p cfg st step).1.notifiedSessions S = true := by
  cases step with
  | deliver ev => simp [runStep, notifiesFor] at h
  | fire s env =>
    by_cases hpend : st.pendingTimers s = true
    · simp only [runStep, hpend, if_true] at h ⊢
      rcases exec_cases p cfg st s env with hc | hc
      · rw [hc] at h
        simp [notifiesFor] at h
      · rw [hc.2, notifiesFor_cons, tryDispatch_count] at h
        by_cases hsS : s = S
        · exact hsS ▸ hc.1
        · simp [DispatchAction.isNotifyFor, hsS] at h
    · simp [runStep, hpend, notifiesFor] at h

lemma runTrace_frame (p : Platform) (cfg : MergedConfig) (st : SchedulerState)
    (steps : List Step) (T : String)
    (h : ∀ step ∈ steps, involvesSession T step = false) :
    agreesAt T st (runTrace p cfg st steps).1 ∧
      notifiesFor T (runTrace p cfg st steps).2 = 0 := by
  induction steps generalizing st with
  | nil => simp [runTrace, agreesAt, notifiesFor]
  | cons step rest ih =>
    have h1 := runStep_frame p cfg st step T (h step (List.mem_cons_self _ _))
    have h2 := ih (runStep p cfg st step).1 (fun s hs => h s (List.mem_cons_of_mem _ hs))
    refine ⟨?_, ?_⟩
    · rcases h1.1 with ⟨a1, a2, a3⟩
      rcases h2.1 with ⟨b1, b2, b3⟩
      exact ⟨a1.trans b1, a2.trans b2, a3.trans b3⟩
    · show notifiesFor T ((runStep p cfg st step).2 ++
        (runTrace p cfg (runStep p cfg st step).1 rest).2) = 0
      rw [notifiesFor_append, h1.2, h2.2]

lemma runTrace_notified_zero (p : Platform) (cfg : MergedConfig) (st : SchedulerState)
    (steps : List Step) (S : String)
    (hnot : st.notifiedSessions S = true)
    (hend : ∀ step ∈ steps, endsEpisodeFor S step = false) :
    (runTrace p cfg st steps).1.notifiedSessions S = true ∧
      notifiesFor S (runTrace p cfg st steps).2 = 0 := by
  induction steps generalizing st with
  | nil => simpa [runTrace, notifiesFor]
  | cons step rest ih =>
    have h1 := runStep_preserves_notified p cfg st step S hnot
      (hend step (List.mem_cons_self _ _))
    have h2 := ih (runStep p cfg st step).1 h1.1
      (fun s hs => hend s (List.mem_cons_of_mem _ hs))
    refine ⟨h2.1, ?_⟩
    show notifiesFor S ((runStep p cfg st step).2 ++
      (runTrace p cfg (runStep p cfg st step).1 rest).2) = 0
    rw [notifiesFor_append, h1.2, h2.2]

lemma runTrace_preserves_armed (p : Platform) (cfg : MergedConfig) (st : SchedulerState)
    (steps : List Step) (S : String)
    (hpend : st.pendingTimers S = true) (hnot : st.notifiedSessions S = false)
    (hact : st.sessionActivitySinceIdle S = false)
    (hend : ∀ step ∈ steps, endsEpisodeFor S step = false ∧ firesFor S step = false) :
    (runTrace p cfg st steps).1.pendingTimers S = true ∧
      (runTrace p cfg st steps).1.notifiedSessions S = false ∧
      (runTrace p cfg st steps).1.sessionActivitySinceIdle S = false ∧
      notifiesFor S (runTrace p cfg st steps).2 = 0 := by
  induction steps generalizing st with
  | nil => exact ⟨hpend, hnot, hact, by simp [runTrace, notifiesFor]⟩
  | cons step rest ih =>
    have h1 := runStep_preserves_armed p cfg st step S hpend hnot hact
      (hend step (List.mem_cons_self _ _)).1 (hend step (List.mem_cons_self _ _)).2
    have h2 := ih (runStep p cfg st step).1 h1.1 h1.2.1 h1.2.2.1
      (fun s hs => hend s (List.mem_cons_of_mem _ hs))
    refine ⟨h2.1, h2.2.1, h2.2.2.1, ?_⟩
    show notifiesFor S ((runStep p cfg st step).2 ++
      (runTrace p cfg (runStep p cfg st step).1 rest).2) = 0
    rw [notifiesFor_append, h1.2.2.2, h2.2.2.2]

lemma endsEpisodeForC_deliver (S : String) (ev : Event) :
    endsEpisodeForC S (CStep.deliver ev) = endsEpisodeFor S (Step.deliver ev) := by
  cases ev with
  | sessionCreated o => cases o <;> rfl
  | sessionUpdated o => cases o <;> rfl
  | sessionIdle o => cases o <;> rfl
  | messageUpdated o => cases o <;> rfl
  | sessionDeleted o => cases o <;> rfl
  | other => rfl

lemma fireBegin_cases (p : Platform) (cfg : MergedConfig) (cs : CState) (sid : String)
    (env : FireEnv) :
    (runCStep p cfg cs (CStep.fireBegin sid env)).2 = [] ∨
      ((runCStep p cfg cs (CStep.fireBegin sid env)).2 =
          DispatchAction.markNotified sid :: (tryDispatch p cfg sid env).1 ∧
        (runCStep p cfg cs (CStep.fireBegin sid env)).1.sched.notifiedSessions sid
          = true) := by
  by_cases h1 : cs.sched.pendingTimers sid = true
  · by_cases h2 : cs.sched.sessionActivitySinceIdle sid = true
    · left
      simp [runCStep, h1, h2]
    · by_cases h3 : cs.sched.notifiedSessions sid = true
      · left
        simp [runCStep, h1, h2, h3]
      · by_cases h4 : cfg.skipIfIncompleteTodos = true
        · left
          simp [runCStep, h1, h2, h3, h4]
        · right
          exact ⟨by simp [runCStep, h1, h2, h3, h4],
            by simp [runCStep, h1, h2, h3, h4, setFlag_eval]⟩
  · left
    simp [runCStep, h1]

lemma fireResume_cases (p : Platform) (cfg : MergedConfig) (cs : CState) (sid : String)
    (env : FireEnv) :
    (runCStep p cfg cs (CStep.fireResume sid env)).2 = [] ∨
      ((runCStep p cfg cs (CStep.fireResume sid env)).2 =
          DispatchAction.markNotified sid :: (tryDispatch p cfg sid env).1 ∧
        (runCStep p cfg cs (CStep.fireResume sid env)).1.sched.notifiedSessions sid
          = true) := by
  by_cases h1 : cs.inFlight sid = 0
  · left
    simp [runCStep, h1]
  · by_cases h2 : hasIncompleteTodos env.todoResponse = true
    · left
      simp [runCStep, h1, h2]
    · right
      exact ⟨by simp [runCStep, h1, h2], by simp [runCStep, h1, h2, setFlag_eval]⟩

lemma fire_eq_begin_then_resume (p : Platform) (cfg : MergedConfig) (st : SchedulerState)
    (sid : String) (env : FireEnv) :
    ((runCStep p cfg ((runCStep p cfg ⟨st, fun _ => 0⟩ (CStep.fireBegin sid env)).1)
        (CStep.fireResume sid env)).1).sched = (runStep p cfg st (Step.fire sid env)).1 ∧
    ((runCStep p cfg ⟨st, fun _ => 0⟩ (CStep.fireBegin sid env)).2 ++
      (runCStep p cfg ((runCStep p cfg ⟨st, fun _ => 0⟩ (CStep.fireBegin sid env)).1)
        (CStep.fireResume sid env)).2) = (runStep p cfg st (Step.fire sid env)).2 := by
  by_cases h1 : st.pendingTimers sid = true
  · by_cases h2 : st.sessionActivitySinceIdle sid = true
    · constructor <;> simp [runCStep, runStep, executeNotification, h1, h2]
    · by_cases h3 : st.notifiedSessions sid = true
      · constructor <;> simp [runCStep, runStep, executeNotification, h1, h2, h3]
      · by_cases h4 : cfg.skipIfIncompleteTodos = true
        · by_cases h5 : hasIncompleteTodos env.todoResponse = true
          · constructor <;>
              simp [runCStep, runStep, executeNotification, h1, h2, h3, h4, h5]
          · constructor <;>
              simp [runCStep, runStep, executeNotification, h1, h2, h3, h4, h5]
        · constructor <;>
            simp [runCStep, runStep, executeNotification, h1, h2, h3, h4]
  · constructor <;> simp [runCStep, runStep, executeNotification, h1]

lemma runCStep_notify_le_one (p : Platform) (cfg : MergedConfig) (cs : CState)
    (step : CStep) (S : String) :
    notifiesFor S (runCStep p cfg cs step).2 ≤ 1 := by
  cases step with
  | deliver ev => simp [runCStep, notifiesFor]
  | fireBegin sid env =>
    rcases fireBegin_cases p cfg cs sid env with hc | hc
    · simp [hc, notifiesFor]
    · rw [hc.1, notifiesFor_cons, tryDispatch_count]
      split_ifs <;> simp_all [DispatchAction.isNotifyFor]
  | fireResume sid env =>
    rcases fireResume_cases p cfg cs sid env with hc | hc
    · simp [hc, notifiesFor]
    · rw [hc.1, notifiesFor_cons, tryDispatch_count]
      split_ifs <;> simp_all [DispatchAction.isNotifyFor]

lemma runCStep_notify_pos (p : Platform) (cfg : MergedConfig) (cs : CState)
    (step : CStep) (S : String)
    (h : 0 < notifiesFor S (runCStep p cfg cs step).2) :
    (runCStep p cfg cs step).1.sched.notifiedSessions S = true := by
  cases step with
  | deliver ev => simp [runCStep, notifiesFor] at h
  | fireBegin sid env =>
    rcases fireBegin_cases p cfg cs sid env with hc | hc
    · rw [hc] at h
      simp [notifiesFor] at h
    · rw [hc.1, notifiesFor_cons, tryDispatch_count] at h
      by_cases hsS : sid = S
      · exact hsS ▸ hc.2
      · simp [DispatchAction.isNotifyFor, hsS] at h
  | fireResume sid env =>
    rcases fireResume_cases p cfg cs sid env with hc | hc
    · rw [hc] at h
      simp [notifiesFor] at h
    · rw [hc.1, notifiesFor_cons, tryDispatch_count] at h
      by_cases hsS : sid = S
      · exact hsS ▸ hc.2
      · simp [DispatchAction.isNotifyFor, hsS] at h

lemma runCStep_inflight_zero (p : Platform) (cfg : MergedConfig) (cs : CState)
    (step : CStep) (S : String)
    (hskip : cfg.skipIfIncompleteTodos = false)
    (hfl : cs.inFlight S = 0) :
    (runCStep p cfg cs step).1.inFlight S = 0 := by
  cases step with
  | deliver ev => simpa [runCStep]
  | fireBegin sid env =>
    by_cases h1 : cs.sched.pendingTimers sid = true
    · by_cases h2 : cs.sched.sessionActivitySinceIdle sid = true
      · simpa [runCStep, h1, h2]
      · by_cases h3 : cs.sched.notifiedSessions sid = true
        · simpa [runCStep, h1, h2, h3]
        · simpa [runCStep, h1, h2, h3, hskip]
    · simpa [runCStep, h1]
  | fireResume sid env =>
    by_cases h1 : cs.inFlight sid = 0
    · simpa [runCStep, h1]
    · by_cases h2 : hasIncompleteTodos env.todoResponse = true <;>
        by_cases hsS : S = sid <;>
          simp_all [runCStep]

lemma runCStep_preserves_notified_c (p : Platform) (cfg : MergedConfig) (cs : CState)
    (step : CStep) (S : String)
    (hnot : cs.sched.notifiedSessions S = true)
    (hfl : cs.inFlight S = 0)
    (hend : endsEpisodeForC S step = false) :
    (runCStep p cfg cs step).1.sched.notifiedSessions S = true ∧
      notifiesFor S (runCStep p cfg cs step).2 = 0 := by
  cases step with
  | deliver ev =>
    refine ⟨?_, by simp [runCStep, notifiesFor]⟩
    rw [endsEpisodeForC_deliver] at hend
    exact (runStep_preserves_notified p cfg cs.sched (Step.deliver ev) S hnot hend).1
  | fireBegin sid env =>
    by_cases hsS : sid = S
    · subst hsS
      by_cases h1 : cs.sched.pendingTimers sid = true
      · by_cases h2 : cs.sched.sessionActivitySinceIdle sid = true
        · simp [runCStep, h1, h2, hnot, notifiesFor]
        · simp [runCStep, h1, h2, hnot, notifiesFor]
      · simp [runCStep, h1, hnot, notifiesFor]
    · have hSs : ¬(S = sid) := fun hh => hsS hh.symm
      by_cases h1 : cs.sched.pendingTimers sid = true
      · by_cases h2 : cs.sched.sessionActivitySinceIdle sid = true
        · simp [runCStep, h1, h2, hnot, notifiesFor]
        · by_cases h3 : cs.sched.notifiedSessions sid = true
          · simp [runCStep, h1, h2, h3, hnot, notifiesFor]
          · by_cases h4 : cfg.skipIfIncompleteTodos = true
            · simp [runCStep, h1, h2, h3, h4, hnot, notifiesFor]
            · refine ⟨by simp [runCStep, h1, h2, h3, h4, setFlag_eval, hSs, hnot], ?_⟩
              have hacts : (runCStep p cfg cs (CStep.fireBegin sid env)).2 =
                  DispatchAction.markNotified sid :: (tryDispatch p cfg sid env).1 := by
                simp [runCStep, h1, h2, h3, h4]
              rw [hacts, notifiesFor_cons, tryDispatch_count]
              simp [DispatchAction.isNotifyFor, hsS]
      · simp [runCStep, h1, hnot, notifiesFor]
  | fireResume sid env =>
    by_cases hsS : sid = S
    · subst hsS
      simp [runCStep, hfl, hnot, notifiesFor]
    · have hSs : ¬(S = sid) := fun hh => hsS hh.symm
      by_cases h1 : cs.inFlight sid = 0
      · simp [runCStep, h1, hnot, notifiesFor]
      · by_cases h2 : hasIncompleteTodos env.todoResponse = true
        · simp [runCStep, h1, h2, hnot, notifiesFor]
        · refine ⟨by simp [runCStep, h1, h2, setFlag_eval, hSs, hnot], ?_⟩
          have hacts : (runCStep p cfg cs (CStep.fireResume sid env)).2 =
              DispatchAction.markNotified sid :: (tryDispatch p cfg sid env).1 := by
            simp [runCStep, h1, h2]
          rw [hacts, notifiesFor_cons, tryDispatch_count]
          simp [DispatchAction.isNotifyFor, hsS]

lemma runCTrace_notified_zero (p : Platform) (cfg : MergedConfig) (cs : CState)
    (steps : List CStep) (S : String)
    (hskip : cfg.skipIfIncompleteTodos = false)
    (hnot : cs.sched.notifiedSessions S = true)
    (hfl : cs.inFlight S = 0)
    (hend : ∀ step ∈ steps, endsEpisodeForC S step = false) :
    (runCTrace p cfg cs steps).1.sched.notifiedSessions S = true ∧
      notifiesFor S (runCTrace p cfg cs steps).2 = 0 := by
  induction steps generalizing cs with
  | nil => simpa [runCTrace, notifiesFor]
  | cons step rest ih =>
    have h1 := runCStep_preserves_notified_c p cfg cs step S hnot hfl
      (hend step (List.mem_cons_self _ _))
    have hf1 := runCStep_inflight_zero p cfg cs step S hskip hfl
    have h2 := ih (runCStep p cfg cs step).1 h1.1 hf1
      (fun s hs => hend s (List.mem_cons_of_mem _ hs))
    refine ⟨h2.1, ?_⟩
    show notifiesFor S ((runCStep p cfg cs step).2 ++
      (runCTrace p cfg (runCStep p cfg cs step).1 rest).2) = 0
    rw [notifiesFor_append, h1.2, h2.2]

/-- Merged configuration with every field defaulted, for concrete runs. -/
def sampleCfg : MergedConfig := mergeConfig Platform.darwin {}

/-- A firing environment whose todo query succeeds with an absent list and
whose notification command succeeds. -/
def sampleEnv : FireEnv := ⟨Except.ok none, false⟩

/-- Merged configuration with `skipIfIncompleteTodos` disabled. -/
def noSkipCfg : MergedConfig :=
  mergeConfig Platform.darwin { skipIfIncompleteTodos := some false }

/-- The double-notification race: idle arms timer 1; timer 1 fires and
suspends on the todo-gate query; a second idle, seeing no timer record and
`notified` still false, arms timer 2; timer 2 fires and also suspends;
both routines then resume past their already-performed checks and each
commits and notifies. -/
def raceTrace : List CStep :=
  [CStep.deliver (Event.sessionIdle (some "s1")),
    CStep.fireBegin "s1" sampleEnv,
    CStep.deliver (Event.sessionIdle (some "s1")),
    CStep.fireBegin "s1" sampleEnv,
    CStep.fireResume "s1" sampleEnv,
    CStep.fireResume "s1" sampleEnv]

/-- C1 counterexample: the claim — at most one notification dispatched per
idle episode — is false of the program.  The confirmation routine deletes
its timer record and performs its checks, then suspends at
`await hasIncompleteTodos` before `notifiedSessions.add`; a `session.idle`
processed during that suspension re-arms, and the second routine passes the
same checks before either commits.  `raceTrace` contains no activity or
deletion event for "s1" — the episode never ends — yet the run dispatches
two notifications for "s1". -/
theorem c1_counterexample :
    (∀ step ∈ raceTrace, endsEpisodeForC "s1" step = false) ∧
    notifiesFor "s1" (runCTrace Platform.darwin sampleCfg initCState raceTrace).2 = 2 :=
  ⟨by decide, by decide⟩

/-- C1 amended: when `skipIfIncompleteTodos` is false the confirmation
routine commits in the same synchronous segment as its checks, and the bound
holds: within any trace segment containing no activity or deletion event for
session `S` (starting from any state with no routine for `S` suspended at
the todo gate, as in every reachable state under this configuration), at
most one notification is dispatched for `S`.  When the flag is true, a
`session.idle` processed during a routine's todo-gate suspension can arm a
second timer whose routine also notifies — `c1_counterexample`. -/
theorem c1_amended_at_most_one_when_gate_disabled (p : Platform) (cfg : MergedConfig)
    (cs : CState) (steps : List CStep) (S : String)
    (hskip : cfg.skipIfIncompleteTodos = false)
    (hfl : cs.inFlight S = 0)
    (hend : ∀ step ∈ steps, endsEpisodeForC S step = false) :
    notifiesFor S (runCTrace p cfg cs steps).2 ≤ 1 := by
  induction steps generalizing cs with
  | nil => simp [runCTrace, notifiesFor]
  | cons step rest ih =>
    have hfl1 := runCStep_inflight_zero p cfg cs step S hskip hfl
    show notifiesFor S ((runCStep p cfg cs step).2 ++
      (runCTrace p cfg (runCStep p cfg cs step).1 rest).2) ≤ 1
    rw [notifiesFor_append]
    rcases Nat.eq_zero_or_pos (notifiesFor S (runCStep p cfg cs step).2) with h0 | hpos
    · rw [h0]
      simpa using ih (runCStep p cfg cs step).1 hfl1
        (fun s hs => hend s (List.mem_cons_of_mem _ hs))
    · have hn := runCStep_notify_pos p cfg cs step S hpos
      have hz := runCTrace_notified_zero p cfg (runCStep p cfg cs step).1 rest S hskip
        hn hfl1 (fun s hs => hend s (List.mem_cons_of_mem _ hs))
      have hle := runCStep_notify_le_one p cfg cs step S
      rw [hz.2]
      omega

/-- C1 amended witness: with the todo gate disabled, a concrete
idle–begin–resume run notifies at most once. -/
theorem c1_amended_witness :
    noSkipCfg.skipIfIncompleteTodos = false ∧
    initCState.inFlight "s1" = 0 ∧
    (∀ step ∈ [CStep.deliver (Event.sessionIdle (some "s1")),
        CStep.fireBegin "s1" sampleEnv, CStep.fireResume "s1" sampleEnv],
      endsEpisodeForC "s1" step = false) ∧
    notifiesFor "s1" (runCTrace Platform.darwin noSkipCfg initCState
      [CStep.deliver (Event.sessionIdle (some "s1")),
        CStep.fireBegin "s1" sampleEnv, CStep.fireResume "s1" sampleEnv]).2 ≤ 1 :=
  ⟨by decide, rfl, by decide,
    c1_amended_at_most_one_when_gate_disabled Platform.darwin noSkipCfg initCState
      [CStep.deliver (Event.sessionIdle (some "s1")),
        CStep.fireBegin "s1" sampleEnv, CStep.fireResume "s1" sampleEnv] "s1"
      (by decide) rfl (by decide)⟩

/-- C3: an activity event (`session.created`, `session.updated` or
`message.updated`) for `S` delivered strictly after `session.idle(S)` and
strictly before the confirmation timer fires cancels the timer, so the firing
is a no-op and no notification is dispatched for that idle episode — from any
starting state. -/
theorem c3_activity_between_idle_and_firing_suppresses (p : Platform) (cfg : MergedConfig)
    (st : SchedulerState) (S : String) (env : FireEnv) (a : Event)
    (hp : p ≠ Platform.unsupported)
    (ha : a = Event.sessionCreated (some S) ∨ a = Event.sessionUpdated (some S) ∨
      a = Event.messageUpdated (some S)) :
    notifiesFor S (runTrace p cfg st
      [Step.deliver (Event.sessionIdle (some S)), Step.deliver a, Step.fire S env]).2 = 0 := by
  have hB : ∀ st2 : SchedulerState, (handleEvent p st2 a).pendingTimers S = false := by
    intro st2
    rcases ha with h | h | h <;> subst h <;> simp [handleEvent, hp, mark_pending]
  simp [runTrace, runStep, notifiesFor, hB]

/-- C3 witness: a concrete idle–activity–fire trace yields zero notify
calls. -/
theorem c3_witness :
    Platform.darwin ≠ Platform.unsupported ∧
    notifiesFor "s1" (runTrace Platform.darwin sampleCfg initState
      [Step.deliver (Event.sessionIdle (some "s1")),
        Step.deliver (Event.messageUpdated (some "s1")),
        Step.fire "s1" sampleEnv]).2 = 0 :=
  ⟨by decide,
    c3_activity_between_idle_and_firing_suppresses Platform.darwin sampleCfg initState
      "s1" sampleEnv (Event.messageUpdated (some "s1")) (by decide)
      (Or.inr (Or.inr rfl))⟩

/-- C4: a `session.idle` event arriving while a timer is already pending for
that session, or while `notified` is already true for it, arms no new timer
and changes no state at all — the handler returns the state unchanged, so at
most one pending timer ever exists per session. -/
theorem c4_idle_while_pending_or_notified_is_noop (p : Platform) (st : SchedulerState)
    (S : String)
    (h : st.pendingTimers S = true ∨ st.notifiedSessions S = true) :
    handleEvent p st (Event.sessionIdle (some S)) = st := by
  by_cases hp : p = Platform.unsupported
  · simp [handleEvent, hp]
  · rcases h with h | h <;> simp [handleEvent, hp, h]

/-- C4 witness: after arming a timer for "s1", a second idle event leaves the
state unchanged. -/
theorem c4_witness :
    (handleEvent Platform.darwin initState
        (Event.sessionIdle (some "s1"))).pendingTimers "s1" = true ∧
    handleEvent Platform.darwin
        (handleEvent Platform.darwin initState (Event.sessionIdle (some "s1")))
        (Event.sessionIdle (some "s1")) =
      handleEvent Platform.darwin initState (Event.sessionIdle (some "s1")) :=
  ⟨by decide,
    c4_idle_while_pending_or_notified_is_noop Platform.darwin
      (handleEvent Platform.darwin initState (Event.sessionIdle (some "s1"))) "s1"
      (Or.inl (by decide))⟩

/-- C5: `session.deleted` cancels any pending timer and clears all three
pieces of per-session state; a subsequent `session.idle` for the same
identifier then behaves exactly as for a new session — all three flags are
false, which is precisely a fresh session's state, so the idle event arms a
timer, clears `activitySinceIdle` and leaves `notified` false. -/
theorem c5_deleted_resets_session (p : Platform) (st : SchedulerState) (S : String)
    (hp : p ≠ Platform.unsupported) :
    (handleEvent p st (Event.sessionDeleted (some S))).notifiedSessions S = false ∧
    (handleEvent p st (Event.sessionDeleted (some S))).pendingTimers S = false ∧
    (handleEvent p st (Event.sessionDeleted (some S))).sessionActivitySinceIdle S = false ∧
    (handleEvent p (handleEvent p st (Event.sessionDeleted (some S)))
        (Event.sessionIdle (some S))).pendingTimers S = true ∧
    (handleEvent p (handleEvent p st (Event.sessionDeleted (some S)))
        (Event.sessionIdle (some S))).sessionActivitySinceIdle S = false ∧
    (handleEvent p (handleEvent p st (Event.sessionDeleted (some S)))
        (Event.sessionIdle (some S))).notifiedSessions S = false := by
  have h1 : (handleEvent p st (Event.sessionDeleted (some S))).notifiedSessions S = false := by
    simp [handleEvent, hp, setFlag_eval]
  have h2 : (handleEvent p st (Event.sessionDeleted (some S))).pendingTimers S = false := by
    simp [handleEvent, hp, setFlag_eval, cancelPending_pending]
  have h3 : (handleEvent p st
      (Event.sessionDeleted (some S))).sessionActivitySinceIdle S = false := by
    simp [handleEvent, hp, setFlag_eval]
  refine ⟨h1, h2, h3, ?_, ?_, ?_⟩ <;>
    simp [handleEvent, hp, setFlag_eval, cancelPending_pending, cancelPending_activity,
      cancelPending_notified]

/-- C5 witness: deleting "s1" from an armed-and-notified state clears it and
the next idle arms afresh. -/
theorem c5_witness :
    Platform.darwin ≠ Platform.unsupported ∧
    (handleEvent Platform.darwin
        (handleEvent Platform.darwin initState (Event.sessionIdle (some "s1")))
        (Event.sessionDeleted (some "s1"))).pendingTimers "s1" = false :=
  ⟨by decide,
    (c5_deleted_resets_session Platform.darwin
      (handleEvent Platform.darwin initState (Event.sessionIdle (some "s1"))) "s1"
      (by decide)).2.1⟩

/-- C6: the todo gate returns true iff the retrieved task list contains a
task whose status is neither "completed" nor "cancelled"; it returns false
for an empty or absent list and false on any retrieval failure (fail-open). -/
theorem c6_todo_gate_fail_open (response : Except Unit (Option (List Todo))) :
    (hasIncompleteTodos response = true ↔
      ∃ todos, response = Except.ok (some todos) ∧
        ∃ t ∈ todos, t.status ≠ "completed" ∧ t.status ≠ "cancelled") ∧
    hasIncompleteTodos (Except.error ()) = false ∧
    hasIncompleteTodos (Except.ok none) = false ∧
    hasIncompleteTodos (Except.ok (some [])) = false := by
  refine ⟨?_, rfl, rfl, rfl⟩
  cases response with
  | error e => simp [hasIncompleteTodos]
  | ok o =>
    cases o with
    | none => simp [hasIncompleteTodos]
    | some todos =>
      by_cases hlen : todos.length = 0
      · rw [List.length_eq_zero] at hlen
        subst hlen
        simp [hasIncompleteTodos]
      · simp [hasIncompleteTodos, hlen, List.any_eq_true]

/-- C2: starting from a fresh state, after `session.idle(S)` arms the timer,
if no step for `S` occurs before the timer fires (steps of other sessions are
arbitrary) and either `skipIfIncompleteTodos` is false or the todo gate
reports no incomplete work at firing time, then the run makes exactly one
notify call for `S`, and that call carries the configured title and
message. -/
theorem c2_undisturbed_idle_fires_exactly_once (p : Platform) (cfg : MergedConfig)
    (S : String) (env : FireEnv) (middle : List Step)
    (hp : p ≠ Platform.unsupported)
    (hmid : ∀ step ∈ middle, endsEpisodeFor S step = false ∧ firesFor S step = false)
    (hgate : cfg.skipIfIncompleteTodos = false ∨ hasIncompleteTodos env.todoResponse = false) :
    notifiesFor S (runTrace p cfg initState
      (Step.deliver (Event.sessionIdle (some S)) :: (middle ++ [Step.fire S env]))).2 = 1 ∧
    DispatchAction.notifyCall S cfg.title cfg.message ∈
      (runTrace p cfg initState
        (Step.deliver (Event.sessionIdle (some S)) :: (middle ++ [Step.fire S env]))).2 := by
  have harm1 : (handleEvent p initState (Event.sessionIdle (some S))).pendingTimers S
      = true := by
    simp [handleEvent, hp, initState, setFlag_eval]
  have harm2 : (handleEvent p initState (Event.sessionIdle (some S))).notifiedSessions S
      = false := by
    simp [handleEvent, hp, initState]
  have harm3 : (handleEvent p initState
      (Event.sessionIdle (some S))).sessionActivitySinceIdle S = false := by
    simp [handleEvent, hp, initState, setFlag_eval]
  have hmidres := runTrace_preserves_armed p cfg
    (handleEvent p initState (Event.sessionIdle (some S))) middle S harm1 harm2 harm3 hmid
  have hfire := exec_dispatch p cfg
    (runTrace p cfg (handleEvent p initState (Event.sessionIdle (some S))) middle).1
    S env hmidres.2.2.1 hmidres.2.1 hgate
  have hacts : (runTrace p cfg initState
      (Step.deliver (Event.sessionIdle (some S)) :: (middle ++ [Step.fire S env]))).2 =
      (runTrace p cfg (handleEvent p initState (Event.sessionIdle (some S))) middle).2 ++
        (DispatchAction.markNotified S :: (tryDispatch p cfg S env).1) := by
    show ([] : List DispatchAction) ++
      (runTrace p cfg (handleEvent p initState (Event.sessionIdle (some S)))
        (middle ++ [Step.fire S env])).2 = _
    rw [List.nil_append, runTrace_append]
    show (runTrace p cfg (handleEvent p initState (Event.sessionIdle (some S))) middle).2 ++
      (runTrace p cfg
        (runTrace p cfg (handleEvent p initState (Event.sessionIdle (some S))) middle).1
        [Step.fire S env]).2 = _
    congr 1
    show (runStep p cfg
      (runTrace p cfg (handleEvent p initState (Event.sessionIdle (some S))) middle).1
      (Step.fire S env)).2 ++ [] = _
    rw [List.append_nil]
    simp only [runStep, hmidres.1, if_true]
    rw [hfire]
  constructor
  · rw [hacts, notifiesFor_append, hmidres.2.2.2, notifiesFor_cons, tryDispatch_count]
    simp [DispatchAction.isNotifyFor, hp]
  · rw [hacts]
    exact List.mem_append_right _ (List.mem_cons_of_mem _ (tryDispatch_mem p cfg S env hp))

/-- C2 witness: a concrete run — idle for "s1", one unrelated event for "s2"
in between, then the firing — produces exactly one notify call with the
default title and message. -/
theorem c2_witness :
    Platform.darwin ≠ Platform.unsupported ∧
    (∀ step ∈ [Step.deliver (Event.sessionUpdated (some "s2"))],
      endsEpisodeFor "s1" step = false ∧ firesFor "s1" step = false) ∧
    (sampleCfg.skipIfIncompleteTodos = false ∨
      hasIncompleteTodos sampleEnv.todoResponse = false) ∧
    notifiesFor "s1" (runTrace Platform.darwin sampleCfg initState
      (Step.deliver (Event.sessionIdle (some "s1")) ::
        ([Step.deliver (Event.sessionUpdated (some "s2"))] ++ [Step.fire "s1" sampleEnv]))).2
      = 1 :=
  ⟨by decide, by decide, by decide,
    (c2_undisturbed_idle_fires_exactly_once Platform.darwin sampleCfg "s1" sampleEnv
      [Step.deliver (Event.sessionUpdated (some "s2"))] (by decide) (by decide)
      (by decide)).1⟩

/-- C7: once the confirmation routine reaches the dispatch decision (the
activity veto, the already-notified check and the todo gate all pass),
`notified` is set true for the session and the recorded sink calls put the
`markNotified` commit strictly before the notify call; and the resulting
state does not depend on whether the dispatch fails — the error is caught
and discarded, never propagating and never rolling `notified` back. -/
theorem c7_commit_before_dispatch_and_errors_discarded (p : Platform) (cfg : MergedConfig)
    (st : SchedulerState) (S : String) (env : FireEnv)
    (hp : p ≠ Platform.unsupported)
    (hact : st.sessionActivitySinceIdle S = false)
    (hnot : st.notifiedSessions S = false)
    (hgate : cfg.skipIfIncompleteTodos = false ∨ hasIncompleteTodos env.todoResponse = false) :
    (executeNotification p cfg st S env).1.notifiedSessions S = true ∧
    (∃ rest, (executeNotification p cfg st S env).2 =
      DispatchAction.markNotified S ::
        DispatchAction.notifyCall S cfg.title cfg.message :: rest) ∧
    ∀ env2 : FireEnv, env2.todoResponse = env.todoResponse →
      (executeNotification p cfg st S env2).1 = (executeNotification p cfg st S env).1 := by
  have hd := exec_dispatch p cfg st S env hact hnot hgate
  refine ⟨?_, ?_, ?_⟩
  · rw [hd]
    simp [setFlag_eval]
  · rw [hd]
    cases p with
    | unsupported => exact absurd rfl hp
    | darwin =>
      unfold tryDispatch
      split_ifs <;> exact ⟨_, rfl⟩
    | linux =>
      unfold tryDispatch
      split_ifs <;> exact ⟨_, rfl⟩
    | win32 =>
      unfold tryDispatch
      split_ifs <;> exact ⟨_, rfl⟩
  · intro env2 he
    have hd2 := exec_dispatch p cfg st S env2 hact hnot (by rw [he]; exact hgate)
    rw [hd2, hd]

/-- C7 witness: concrete dispatch from an armed, un-notified session, with a
failing notification command in the comparison environment. -/
theorem c7_witness :
    Platform.darwin ≠ Platform.unsupported ∧
    initState.sessionActivitySinceIdle "s1" = false ∧
    initState.notifiedSessions "s1" = false ∧
    (sampleCfg.skipIfIncompleteTodos = false ∨
      hasIncompleteTodos sampleEnv.todoResponse = false) ∧
    (executeNotification Platform.darwin sampleCfg initState "s1"
        sampleEnv).1.notifiedSessions "s1" = true :=
  ⟨by decide, rfl, rfl, by decide,
    (c7_commit_before_dispatch_and_errors_discarded Platform.darwin sampleCfg initState
      "s1" sampleEnv (by decide) rfl rfl (by decide)).1⟩

/-- C8 counterexample: the claimed invariant — `activitySinceIdle` true
implies the session currently has (or very recently had) a pending timer —
is false.  `cancelPendingNotification` adds the session to
`sessionActivitySinceIdle` unconditionally, so the very first event for a
fresh session, an activity event, leaves the flag true although no timer is
pending and none was ever armed at any state of the run (the run's only
states are `initState` and the final one, and both have no timer for
"s1"). -/
theorem c8_counterexample :
    (runTrace Platform.darwin sampleCfg initState
      [Step.deliver (Event.sessionUpdated (some "s1"))]).1.sessionActivitySinceIdle "s1"
        = true ∧
    initState.pendingTimers "s1" = false ∧
    (runTrace Platform.darwin sampleCfg initState
      [Step.deliver (Event.sessionUpdated (some "s1"))]).1.pendingTimers "s1" = false := by
  refine ⟨by decide, rfl, by decide⟩

/-- C8 amended: `activitySinceIdle` is set unconditionally by every activity
event, even for a session with no pending timer (and none ever armed); when
true, it is cleared at the next idle-arm for that session, or consumed at the
next timer firing — which it vetoes, so that firing dispatches nothing — and
it is also cleared by session deletion. -/
theorem c8_amended_activity_flag_lifecycle (p : Platform) (cfg : MergedConfig)
    (st : SchedulerState) (S : String) (env : FireEnv)
    (hp : p ≠ Platform.unsupported) :
    (handleEvent p st (Event.sessionCreated (some S))).sessionActivitySinceIdle S = true ∧
    (handleEvent p st (Event.sessionUpdated (some S))).sessionActivitySinceIdle S = true ∧
    (handleEvent p st (Event.messageUpdated (some S))).sessionActivitySinceIdle S = true ∧
    (st.notifiedSessions S = false → st.pendingTimers S = false →
      (handleEvent p st (Event.sessionIdle (some S))).sessionActivitySinceIdle S = false) ∧
    (st.pendingTimers S = true → st.sessionActivitySinceIdle S = true →
      (runStep p cfg st (Step.fire S env)).1.sessionActivitySinceIdle S = false ∧
        (runStep p cfg st (Step.fire S env)).2 = []) ∧
    (handleEvent p st (Event.sessionDeleted (some S))).sessionActivitySinceIdle S = false := by
  refine ⟨?_, ?_, ?_, ?_, ?_, ?_⟩
  · simp [handleEvent, hp, mark_activity]
  · simp [handleEvent, hp, mark_activity]
  · simp [handleEvent, hp, mark_activity]
  · intro h1 h2
    simp [handleEvent, hp, h1, h2, setFlag_eval]
  · intro h1 h2
    simp only [runStep, h1, if_true]
    unfold executeNotification
    simp [h2, setFlag_eval]
  · simp [handleEvent, hp, setFlag_eval]

/-- C8 amended witness: concrete instantiation on the fresh state, for the
`session.updated` conjunct. -/
theorem c8_amended_witness :
    Platform.darwin ≠ Platform.unsupported ∧
    (handleEvent Platform.darwin initState
      (Event.sessionUpdated (some "s1"))).sessionActivitySinceIdle "s1" = true :=
  ⟨by decide,
    (c8_amended_activity_flag_lifecycle Platform.darwin sampleCfg initState "s1" sampleEnv
      (by decide)).2.1⟩

/-- C9: on the unsupported platform the event handler is a universal no-op —
it returns the state unchanged for every event of every kind — and a whole
run from the fresh state changes nothing and makes no sink call at all (no
timer is ever armed, so no firing ever reaches the notify, sound or todo-gate
code). -/
theorem c9_unsupported_platform_is_noop (cfg : MergedConfig) :
    (∀ (st : SchedulerState) (ev : Event),
      handleEvent Platform.unsupported st ev = st) ∧
    (∀ steps : List Step,
      runTrace Platform.unsupported cfg initState steps = (initState, [])) := by
  constructor
  · intro st ev
    simp [handleEvent]
  · intro steps
    induction steps with
    | nil => rfl
    | cons step rest ih =>
      have h1 : runStep Platform.unsupported cfg initState step = (initState, []) := by
        cases step with
        | deliver ev => simp [runStep, handleEvent]
        | fire sid env => simp [runStep, initState]
      show (let r := runStep Platform.unsupported cfg initState step;
        let r2 := runTrace Platform.unsupported cfg r.1 rest;
        (r2.1, r.2 ++ r2.2)) = (initState, [])
      rw [h1]
      simpa using ih

/-- C10: handling any of the five recognized events keyed by session `S`, and
any timer firing for `S`, leaves the three per-session fields of every other
session `T` unchanged. -/
theorem c10_per_session_frame (p : Platform) (cfg : MergedConfig) (st : SchedulerState)
    (S T : String) (env : FireEnv) (h : T ≠ S) :
    agreesAt T st (handleEvent p st (Event.sessionCreated (some S))) ∧
    agreesAt T st (handleEvent p st (Event.sessionUpdated (some S))) ∧
    agreesAt T st (handleEvent p st (Event.sessionIdle (some S))) ∧
    agreesAt T st (handleEvent p st (Event.messageUpdated (some S))) ∧
    agreesAt T st (handleEvent p st (Event.sessionDeleted (some S))) ∧
    agreesAt T st (runStep p cfg st (Step.fire S env)).1 := by
  have hb : (S == T) = false := beq_eq_false_iff_ne.mpr (Ne.symm h)
  exact ⟨handleEvent_frame p st _ T (by simp [involvesSession, hb]),
    handleEvent_frame p st _ T (by simp [involvesSession, hb]),
    handleEvent_frame p st _ T (by simp [involvesSession, hb]),
    handleEvent_frame p st _ T (by simp [involvesSession, hb]),
    handleEvent_frame p st _ T (by simp [involvesSession, hb]),
    (runStep_frame p cfg st (Step.fire S env) T (by simp [involvesSession, hb])).1⟩

/-- C10 witness: concrete sessions "t1" and "s1". -/
theorem c10_witness :
    "t1" ≠ "s1" ∧
    agreesAt "t1" initState
      (handleEvent Platform.darwin initState (Event.sessionIdle (some "s1"))) :=
  ⟨by decide,
    (c10_per_session_frame Platform.darwin sampleCfg initState "s1" "t1" sampleEnv
      (by decide)).2.2.1⟩

end SessionNotification
